import Mathlib

set_option autoImplicit false
set_option maxRecDepth 8000

namespace Regrest

/-!  A shallow embedding of the `regrest` record-and-compare regression
testing library.  The recording decorator (`decorator.py`), the CLI verify
command (`cli.py`) and the visualization server (`server.py`) are embedded
from their sources.  The value codec, record store and tolerant matcher
live in modules that are only consumed here (`storage.py`, `matcher.py`,
`config.py`); those parts are modelled from the specification, as marked
on each definition.  -/

/-- Decoded runtime values, as produced by the record store's codec and
consumed by the matcher (spec §3 `EncodedValue`, §4.1): primitives,
ordered sequences, unordered collections, string-keyed mappings and
tagged objects.  Floats are modelled as rationals. -/
inductive Value where
  | none
  | bool (b : Bool)
  | int (n : Int)
  | float (q : ℚ)
  | str (s : String)
  | list (elems : List Value)
  | set (elems : List Value)
  | dict (entries : List (String × Value))
  | obj (typeName : String) (fields : List (String × Value))

/-- The kind tag of a value, mirroring Python's runtime type. -/
inductive VKind where
  | noneK | boolK | intK | floatK | strK | listK | setK | dictK
  | objK (typeName : String)
deriving DecidableEq

def Value.kind : Value → VKind
  | .none => .noneK
  | .bool _ => .boolK
  | .int _ => .intK
  | .float _ => .floatK
  | .str _ => .strK
  | .list _ => .listK
  | .set _ => .setK
  | .dict _ => .dictK
  | .obj t _ => .objK t

mutual

/-- Structural equality of values (Python `==` on fully decoded data). -/
def Value.beq : Value → Value → Bool
  | .none, .none => true
  | .bool b1, .bool b2 => b1 == b2
  | .int n1, .int n2 => n1 == n2
  | .float q1, .float q2 => q1 == q2
  | .str s1, .str s2 => s1 == s2
  | .list es, .list as => beqValueList es as
  | .set es, .set as => beqValueList es as
  | .dict kv1, .dict kv2 => beqEntryList kv1 kv2
  | .obj t1 f1, .obj t2 f2 => t1 == t2 && beqEntryList f1 f2
  | _, _ => false

def beqValueList : List Value → List Value → Bool
  | [], [] => true
  | x :: xs, y :: ys => x.beq y && beqValueList xs ys
  | _, _ => false

def beqEntryList : List (String × Value) → List (String × Value) → Bool
  | [], [] => true
  | (k1, v1) :: xs, (k2, v2) :: ys => k1 == k2 && v1.beq v2 && beqEntryList xs ys
  | _, _ => false

end

instance : BEq Value := ⟨Value.beq⟩

/-- Character-wise lexicographic order on strings (Python `str` `<`). -/
def strLtB (a b : String) : Bool :=
  go a.toList b.toList
where
  go : List Char → List Char → Bool
    | [], [] => false
    | [], _ :: _ => true
    | _ :: _, [] => false
    | c :: cs, d :: ds =>
      if c.toNat < d.toNat then true
      else if d.toNat < c.toNat then false
      else go cs ds

def strLeB (a b : String) : Bool := strLtB a b || a == b

/-- Insert into a list sorted by the boolean comparison `le`. -/
def insertLe {α : Type} (le : α → α → Bool) (x : α) : List α → List α
  | [] => [x]
  | y :: ys => if le x y then x :: y :: ys else y :: insertLe le x ys

/-- Insertion sort by a boolean comparison (models Python's `sorted`). -/
def sortLe {α : Type} (le : α → α → Bool) : List α → List α
  | [] => []
  | x :: xs => insertLe le x (sortLe le xs)

theorem mem_insertLe {α : Type} (le : α → α → Bool) (x y : α) (l : List α) :
    y ∈ insertLe le x l ↔ y = x ∨ y ∈ l := by
  induction l with
  | nil => simp [insertLe]
  | cons z zs ih =>
    simp only [insertLe]
    split
    · simp [List.mem_cons]
    · simp only [List.mem_cons, ih]
      tauto

theorem mem_sortLe {α : Type} (le : α → α → Bool) (y : α) (l : List α) :
    y ∈ sortLe le l ↔ y ∈ l := by
  induction l with
  | nil => simp [sortLe]
  | cons z zs ih => simp [sortLe, mem_insertLe, ih]

theorem length_insertLe {α : Type} (le : α → α → Bool) (x : α) (l : List α) :
    (insertLe le x l).length = l.length + 1 := by
  induction l with
  | nil => rfl
  | cons z zs ih =>
    simp only [insertLe]
    split
    · simp
    · simp [ih]

theorem length_sortLe {α : Type} (le : α → α → Bool) (l : List α) :
    (sortLe le l).length = l.length := by
  induction l with
  | nil => rfl
  | cons z zs ih => simp [sortLe, length_insertLe, ih]

def sortStrings (l : List String) : List String := sortLe strLeB l

/-- First `some` produced by `f` over a list, in order. -/
def firstSome {α β : Type} (f : α → Option β) : List α → Option β
  | [] => Option.none
  | x :: xs =>
    match f x with
    | Option.some b => Option.some b
    | Option.none => firstSome f xs

theorem firstSome_eq_some {α β : Type} (f : α → Option β) (l : List α) (b : β)
    (h : firstSome f l = some b) : ∃ x ∈ l, f x = some b := by
  induction l with
  | nil => simp [firstSome] at h
  | cons x xs ih =>
    simp only [firstSome] at h
    cases hx : f x with
    | some c =>
      simp only [hx] at h
      exact ⟨x, by simp, by rw [hx, h]⟩
    | none =>
      simp only [hx] at h
      obtain ⟨y, hy, hfy⟩ := ih h
      exact ⟨y, by simp [hy], hfy⟩

mutual

/-- Human-readable rendering of a value, used in matcher messages. -/
def Value.render : Value → String
  | .none => "None"
  | .bool b => if b then "True" else "False"
  | .int n => toString n
  | .float q => toString q
  | .str s => "'" ++ s ++ "'"
  | .list es => "[" ++ renderValueList es ++ "]"
  | .set es => "set([" ++ renderValueList es ++ "])"
  | .dict kvs => "dict(" ++ renderEntryList kvs ++ ")"
  | .obj t fs => t ++ "(" ++ renderEntryList fs ++ ")"

def renderValueList : List Value → String
  | [] => ""
  | [x] => x.render
  | x :: xs => x.render ++ ", " ++ renderValueList xs

def renderEntryList : List (String × Value) → String
  | [] => ""
  | [(k, v)] => k ++ "=" ++ v.render
  | (k, v) :: xs => k ++ "=" ++ v.render ++ ", " ++ renderEntryList xs

end

def VKind.render : VKind → String
  | .noneK => "NoneType"
  | .boolK => "bool"
  | .intK => "int"
  | .floatK => "float"
  | .strK => "str"
  | .listK => "list"
  | .setK => "set"
  | .dictK => "dict"
  | .objK t => t

/-- One step along a path into a structured value. -/
inductive PathStep where
  | idx (i : Nat)
  | key (k : String)
deriving DecidableEq

def renderPath (p : List PathStep) : String :=
  "root" ++ String.join (p.map fun s =>
    match s with
    | .idx i => "[" ++ toString i ++ "]"
    | .key k => "." ++ k)

/-- The kind of the first divergence the matcher found. -/
inductive DivKind where
  | valueDiff (expected actual : Value)
  | typeMismatch (expected actual : VKind)
  | lengthMismatch (expected actual : Nat)
  | keySetMismatch (expectedKeys actualKeys : List String)
  | unmatchedExpected (elem : Value)
  | unmatchedActual (elem : Value)
  | depthExceeded

/-- A path-qualified divergence between two compared values. -/
structure Divergence where
  path : List PathStep
  kind : DivKind

/-- Numeric view of a value (spec §4.3: integer-vs-float promotes). -/
def Value.toRat? : Value → Option ℚ
  | .int n => some (n : ℚ)
  | .float q => some q
  | _ => Option.none

def Value.isNum (v : Value) : Bool := v.toRat?.isSome

/-- Numeric comparison: integer vs integer exact, otherwise absolute
difference within tolerance (spec §4.3). -/
def numEqB (tol : ℚ) (e a : Value) : Bool :=
  match e, a with
  | .int n, .int m => n == m
  | _, _ =>
    match e.toRat?, a.toRat? with
    | some x, some y => decide (|x - y| ≤ tol)
    | _, _ => false

/-- Leaf-level agreement: numerics under tolerance, other primitives by
exact equality; non-leaf or cross-kind pairs never agree at leaf level. -/
def leafAgreeB (tol : ℚ) (e a : Value) : Bool :=
  if e.isNum && a.isNum then numEqB tol e a
  else
    match e, a with
    | .none, .none => true
    | .bool b1, .bool b2 => b1 == b2
    | .str s1, .str s2 => s1 == s2
    | _, _ => false

/-- A reported divergence kind is real: the two sides it names genuinely
differ under the matcher's rules. -/
def divSoundB (tol : ℚ) : DivKind → Bool
  | .valueDiff e a => !leafAgreeB tol e a
  | .typeMismatch k1 k2 => !(k1 == k2)
  | .lengthMismatch n1 n2 => !(n1 == n2)
  | .keySetMismatch ks1 ks2 => !(ks1 == ks2)
  | .unmatchedExpected _ => true
  | .unmatchedActual _ => true
  | .depthExceeded => true

/-- Modelled from the spec (§4.3 Tolerant Matcher; `matcher.py` is not in
the sources): depth-first, path-tracking structural comparison returning
the first divergence in deterministic traversal order (sequence index
order, sorted key order for mappings), or `none` when the values match.
Numeric leaves compare under the tolerance, cross-kind pairs are type
mismatches, sequences compare positionally after a length check, sets
compare as order-independent counterpart search in both directions,
mappings and tagged objects compare key sets and then values per sorted
key; the recursion depth is bounded, exceeding it reports a divergence. -/
def matchV (tol : ℚ) : Nat → List PathStep → Value → Value → Option Divergence
  | 0, path, _, _ => some ⟨path, .depthExceeded⟩
  | fuel + 1, path, e, a =>
    if e.isNum && a.isNum then
      if numEqB tol e a then Option.none else some ⟨path, .valueDiff e a⟩
    else if e.kind ≠ a.kind then
      some ⟨path, .typeMismatch e.kind a.kind⟩
    else
      match e, a with
      | .none, _ => Option.none
      | .bool b1, .bool b2 =>
        if b1 = b2 then Option.none
        else some ⟨path, .valueDiff (.bool b1) (.bool b2)⟩
      | .str s1, .str s2 =>
        if s1 = s2 then Option.none
        else some ⟨path, .valueDiff (.str s1) (.str s2)⟩
      | .list es, .list as =>
        if es.length ≠ as.length then
          some ⟨path, .lengthMismatch es.length as.length⟩
        else
          firstSome (fun p => matchV tol fuel (path ++ [.idx p.1]) p.2.1 p.2.2)
            (es.zip as).enum
      | .set es, .set as =>
        match es.find? (fun x => as.all fun y => (matchV tol fuel path x y).isSome) with
        | some x => some ⟨path, .unmatchedExpected x⟩
        | Option.none =>
          match as.find? (fun y => es.all fun x => (matchV tol fuel path x y).isSome) with
          | some y => some ⟨path, .unmatchedActual y⟩
          | Option.none => Option.none
      | .dict kv1, .dict kv2 =>
        let ks1 := sortStrings (kv1.map Prod.fst)
        let ks2 := sortStrings (kv2.map Prod.fst)
        if ks1 ≠ ks2 then some ⟨path, .keySetMismatch ks1 ks2⟩
        else
          firstSome (fun k =>
            match kv1.lookup k, kv2.lookup k with
            | some v1, some v2 => matchV tol fuel (path ++ [.key k]) v1 v2
            | _, _ => Option.none) ks1
      | .obj t1 f1, .obj t2 f2 =>
        if t1 ≠ t2 then some ⟨path, .typeMismatch (.objK t1) (.objK t2)⟩
        else
          let ks1 := sortStrings (f1.map Prod.fst)
          let ks2 := sortStrings (f2.map Prod.fst)
          if ks1 ≠ ks2 then some ⟨path, .keySetMismatch ks1 ks2⟩
          else
            firstSome (fun k =>
              match f1.lookup k, f2.lookup k with
              | some v1, some v2 => matchV tol fuel (path ++ [.key k]) v1 v2
              | _, _ => Option.none) ks1
      | _, _ => Option.none

/-- Render one divergence as the matcher's diagnostic message. -/
def renderDiv (d : Divergence) : String :=
  renderPath d.path ++ ": " ++
  match d.kind with
  | .valueDiff e a => "expected " ++ e.render ++ ", got " ++ a.render
  | .typeMismatch k1 k2 =>
    "type mismatch: expected " ++ k1.render ++ ", got " ++ k2.render
  | .lengthMismatch n1 n2 =>
    "length mismatch: expected " ++ toString n1 ++ ", got " ++ toString n2
  | .keySetMismatch ks1 ks2 =>
    "key sets differ: missing " ++
      toString (ks1.filter fun k => !ks2.contains k) ++ ", extra " ++
      toString (ks2.filter fun k => !ks1.contains k)
  | .unmatchedExpected x => "no counterpart for expected element " ++ x.render
  | .unmatchedActual y => "no counterpart for actual element " ++ y.render
  | .depthExceeded => "comparison depth exceeded"

/-- Fixed recursion bound of the matcher (spec §4.3: bounded depth). -/
def matcherMaxDepth : Nat := 100

/-- Outcome of one comparison: boolean verdict plus diagnostic message
(spec §3 `MatchResult`).  Always returned as a value, never thrown. -/
structure MatchResult where
  passed : Bool
  message : String
deriving DecidableEq

/-- Modelled from the spec (§4.3, `Matcher.match` of the absent
`matcher.py`): produce the verdict and the first-divergence message. -/
def matcherMatch (tol : ℚ) (expected actual : Value) : MatchResult :=
  match matchV tol matcherMaxDepth [] expected actual with
  | Option.none => ⟨true, "values match"⟩
  | some d => ⟨false, renderDiv d⟩

theorem leafAgreeB_of_num (tol : ℚ) (e a : Value)
    (h : (e.isNum && a.isNum) = true) : leafAgreeB tol e a = numEqB tol e a := by
  simp [leafAgreeB, h]

/-- Every divergence reported by the matcher is real: the two sides it
names genuinely differ under the matcher's comparison rules. -/
theorem matchV_sound (tol : ℚ) :
    ∀ fuel path e a d, matchV tol fuel path e a = some d →
      divSoundB tol d.kind = true := by
  intro fuel
  induction fuel with
  | zero =>
    intro path e a d h
    simp only [matchV, Option.some.injEq] at h
    subst h
    rfl
  | succ n ih =>
    intro path e a d h
    simp only [matchV] at h
    split at h
    case isTrue hnum =>
      split at h
      case isTrue => exact absurd h (by simp)
      case isFalse hne =>
        cases h
        simp only [divSoundB, leafAgreeB_of_num tol e a hnum]
        simp only [Bool.not_eq_true'] at hne ⊢
        exact Bool.not_eq_true _ ▸ (by simpa using hne)
    case isFalse hnum =>
      split at h
      case isTrue hkind =>
        cases h
        simpa [divSoundB] using hkind
      case isFalse hkind =>
        split at h
        · exact absurd h (by simp)
        · -- bool arm
          split at h
          · exact absurd h (by simp)
          case isFalse hb => cases h; simpa [divSoundB, leafAgreeB] using hb
        · -- str arm
          split at h
          · exact absurd h (by simp)
          case isFalse hs => cases h; simpa [divSoundB, leafAgreeB] using hs
        · -- list arm
          rename_i es as
          split at h
          case isTrue hlen => cases h; simpa [divSoundB] using hlen
          case isFalse hlen =>
            obtain ⟨p, _, hp⟩ := firstSome_eq_some _ _ _ h
            exact ih _ _ _ _ hp
        · -- set arm
          split at h
          · cases h; rfl
          · split at h
            · cases h; rfl
            · exact absurd h (by simp)
        · -- dict arm
          rename_i kv1 kv2
          split at h
          case isTrue hks => cases h; simpa [divSoundB] using hks
          case isFalse hks =>
            obtain ⟨k, _, hk⟩ := firstSome_eq_some _ _ _ h
            cases h1 : kv1.lookup k with
            | none => rw [h1] at hk; exact absurd hk (by simp)
            | some v1 =>
              cases h2 : kv2.lookup k with
              | none => rw [h1, h2] at hk; exact absurd hk (by simp)
              | some v2 =>
                rw [h1, h2] at hk
                exact ih _ _ _ _ hk
        · -- obj arm
          rename_i t1 f1 t2 f2
          split at h
          case isTrue ht => cases h; simpa [divSoundB] using ht
          case isFalse ht =>
            split at h
            case isTrue hks => cases h; simpa [divSoundB] using hks
            case isFalse hks =>
              obtain ⟨k, _, hk⟩ := firstSome_eq_some _ _ _ h
              cases h1 : f1.lookup k with
              | none => rw [h1] at hk; exact absurd hk (by simp)
              | some v1 =>
                cases h2 : f2.lookup k with
                | none => rw [h1, h2] at hk; exact absurd hk (by simp)
                | some v2 =>
                  rw [h1, h2] at hk
                  exact ih _ _ _ _ hk
        · -- catch-all arm returns none
          exact absurd h (by simp)

/-- One persisted observation (spec §3 `TestRecord`; the `TestRecord`
class lives in the absent `storage.py`). -/
structure TestRecord where
  module : String
  function : String
  args : List Value
  kwargs : List (String × Value)
  result : Value
  timestamp : String
  record_id : String

/-- Modelled from the spec (§4.2, the absent `storage.py`): the stable
identity of a call, deterministic in `(module, function, args, kwargs)`
with keyword order canonicalised by sorting keys. -/
def fingerprint (m fn : String) (args : List Value)
    (kwargs : List (String × Value)) :
    String × String × List Value × List (String × Value) :=
  (m, fn, args, sortLe (fun a b => strLeB a.1 b.1) kwargs)

abbrev Fingerprint := String × String × List Value × List (String × Value)

def fpBeq (a b : Fingerprint) : Bool :=
  a.1 == b.1 && a.2.1 == b.2.1 && beqValueList a.2.2.1 b.2.2.1 &&
    beqEntryList a.2.2.2 b.2.2.2

/-- The decodable state of one on-disk record file: it decodes to a
record, or its tagged-object type cannot be resolved (a missing class
surfaces as `AttributeError`, a missing module as `ImportError`), or it
is corrupt in some other way (spec §4.2 failure semantics). -/
inductive StoredFile where
  | ok (r : TestRecord)
  | missingClass (className : String)
  | missingModule (moduleName : String)
  | corrupt (msg : String)

/-- The error message `find` raises for a record file whose tagged-object
type cannot be resolved: a missing class surfaces as `AttributeError`,
a missing module as `ImportError`; `none` for files that are not in that
condition. -/
def StoredFile.unresolvedMsg : StoredFile → Option String
  | .missingClass c => some ("Class '" ++ c ++ "' not found")
  | .missingModule mo => some ("No module named '" ++ mo ++ "'")
  | _ => Option.none

/-- The record store state: one file per fingerprint. -/
abbrev Store := List (Fingerprint × StoredFile)

def Store.lookupFile (s : Store) (fp : Fingerprint) : Option StoredFile :=
  match s with
  | [] => Option.none
  | (k, f) :: rest => if fpBeq k fp then some f else Store.lookupFile rest fp

/-- What `storage.find` does for the caller: the record, absence, or a
raised error of a given Python class. -/
inductive FindResult where
  | found (r : TestRecord)
  | absent
  | attrErr (msg : String)
  | importErr (msg : String)
  | otherErr (msg : String)

/-- Modelled from the spec (§4.2 `find` of the absent `storage.py`):
computes the fingerprint and loads the matching record if present; a
record whose type cannot be resolved raises rather than reading as
absent (`AttributeError` "Class ... not found" for a missing class, as
`server.py` line 100 documents, `ImportError` for a missing module);
other corruption raises an error the decorator does not catch. -/
def Storage.find (s : Store) (m fn : String) (args : List Value)
    (kwargs : List (String × Value)) : FindResult :=
  match s.lookupFile (fingerprint m fn args kwargs) with
  | Option.none => .absent
  | some (.ok r) => .found r
  | some (.missingClass c) => .attrErr ("Class '" ++ c ++ "' not found")
  | some (.missingModule mo) => .importErr ("No module named '" ++ mo ++ "'")
  | some (.corrupt msg) => .otherErr msg

def Store.insertFile (s : Store) (fp : Fingerprint) (f : StoredFile) : Store :=
  match s with
  | [] => [(fp, f)]
  | (k, g) :: rest =>
    if fpBeq k fp then (k, f) :: rest else (k, g) :: Store.insertFile rest fp f

/-- Modelled from the spec (§4.2 `save` of the absent `storage.py`):
writes/overwrites the record keyed by its fingerprint. -/
def Storage.save (s : Store) (r : TestRecord) : Store :=
  Store.insertFile s (fingerprint r.module r.function r.args r.kwargs) (.ok r)

/-- Modelled from the spec (§6; `config.py` is not in the sources): the
configuration the decorator consults — update mode, the raise policy and
the default matcher tolerance. -/
structure Config where
  update_mode : Bool := false
  raise_on_error : Bool := false
  tolerance : ℚ := 1 / 1000000

/-- Observable actions of one decorated call, in order. -/
inductive Event where
  | exec
  | find
  | save (r : TestRecord)
  | logError (line : String)
  | logWarning (msg : String)
  | logInfo (msg : String)

def Event.isSave : Event → Bool
  | .save _ => true
  | _ => false

def Event.isExec : Event → Bool
  | .exec => true
  | _ => false

/-- How one decorated call ends: a normal return, a raised
`RegressionTestError`, or some other exception propagating through. -/
inductive Outcome where
  | ret (v : Value)
  | regressionError (msg : String)
  | exn (msg : String)

/-- The full observable effect of one decorated call. -/
structure WrapperResult where
  outcome : Outcome
  store : Store
  events : List Event

/-- Per-call environment: the persisted store, whether `storage.save`
would raise (the message of the `CodecError`/`StorageError`), and the
timestamp given to a newly written record. -/
structure CallEnv where
  store : Store
  saveError : Option String := Option.none
  now : String := ""

/-- `s.split(sep)` for a nonempty separator, implemented structurally
over the character list (the fuel is one more than the length, enough
for one step per character). -/
def splitCharsAux (sep : List Char) :
    Nat → List Char → List Char → List (List Char)
  | 0, acc, _ => [acc.reverse]
  | _ + 1, acc, [] => [acc.reverse]
  | fuel + 1, acc, c :: cs =>
    if sep.isPrefixOf (c :: cs) then
      acc.reverse :: splitCharsAux sep fuel [] ((c :: cs).drop sep.length)
    else
      splitCharsAux sep fuel (c :: acc) cs

def strSplitOn (s sep : String) : List String :=
  (splitCharsAux sep.data (s.data.length + 1) [] s.data).map fun cs => ⟨cs⟩

def logErrorLines (msg : String) : List Event :=
  ((strSplitOn msg "\n").filter fun l => l ≠ "").map Event.logError

/-- The save step of the wrapper (`decorator.py` lines 134-148): build a
`TestRecord` from the call and write it; an error raised by
`storage.save` propagates — there is no handler around it. -/
def wrapperSave (m fn : String) (args : List Value)
    (kwargs : List (String × Value)) (result : Value) (env : CallEnv)
    (updating : Bool) : WrapperResult :=
  match env.saveError with
  | some e => .mk (.exn e) env.store [Event.exec, Event.find]
  | Option.none =>
    let fp := fingerprint m fn args kwargs
    let record : TestRecord :=
      ⟨m, fn, args, kwargs, result, env.now,
        toString fp.1 ++ "." ++ toString fp.2.1⟩
    .mk (.ret result) (Storage.save env.store record)
      [Event.exec, Event.find, Event.save record,
        Event.logInfo ((if updating then "Updated: " else "Recorded: ")
          ++ m ++ "." ++ fn)]

/-- The wrapper produced by the `regrest` decorator (`decorator.py`
lines 56-171): compute the effective update and raise policies from the
decorator arguments and the config (lines 88-92), execute the wrapped
function exactly once (line 99), look up the existing record (line 110),
on an `AttributeError`/`ImportError` from the lookup raise a
`RegressionTestError` or log and skip the save (lines 111-132), save
when no record exists or update mode is on (lines 134-148), otherwise
compare with the matcher and escalate a failure per the raise policy
(lines 149-167), and return the fresh result on every non-raising path
(line 169). -/
def wrapper (upd : Bool) (roe : Option Bool) (tol : Option ℚ) (cfg : Config)
    (m fn : String) (f : List Value → List (String × Value) → Value)
    (args : List Value) (kwargs : List (String × Value)) (env : CallEnv) :
    WrapperResult :=
  let should_update := upd || cfg.update_mode
  let should_raise := roe.getD cfg.raise_on_error
  let mtol := tol.getD cfg.tolerance
  let result := f args kwargs
  match Storage.find env.store m fn args kwargs with
  | .attrErr e =>
    let msg := "Failed to load existing record for " ++ m ++ "." ++ fn ++ "\n" ++ e
    if should_raise then .mk (.regressionError msg) env.store [Event.exec, Event.find]
    else
      .mk (.ret result) env.store
        ([Event.exec, Event.find] ++ logErrorLines msg ++
          [Event.logWarning ("Skipping save for " ++ m ++ "." ++ fn ++
            " due to record load error")])
  | .importErr e =>
    let msg := "Failed to load existing record for " ++ m ++ "." ++ fn ++ "\n" ++ e
    if should_raise then .mk (.regressionError msg) env.store [Event.exec, Event.find]
    else
      .mk (.ret result) env.store
        ([Event.exec, Event.find] ++ logErrorLines msg ++
          [Event.logWarning ("Skipping save for " ++ m ++ "." ++ fn ++
            " due to record load error")])
  | .otherErr e => .mk (.exn e) env.store [Event.exec, Event.find]
  | .absent => wrapperSave m fn args kwargs result env false
  | .found existing =>
    if should_update then wrapperSave m fn args kwargs result env true
    else
      let mr := matcherMatch mtol existing.result result
      if mr.passed then
        .mk (.ret result) env.store
          [Event.exec, Event.find, Event.logInfo ("Passed: " ++ m ++ "." ++ fn)]
      else
        let msg := "Regression test failed for " ++ m ++ "." ++ fn ++ "\n" ++ mr.message
        if should_raise then
          .mk (.regressionError msg) env.store [Event.exec, Event.find]
        else
          .mk (.ret result) env.store
            ([Event.exec, Event.find] ++ logErrorLines msg)

/-!  The visualization server (`server.py`).  `_serialize_value` walks an
arbitrary Python object graph, which may be cyclic, so its input is
modelled as an address into a heap of nodes rather than an inductive
value. -/

/-- One Python heap node, as `_serialize_value` distinguishes them
(`server.py` lines 604-637): `None`, the JSON primitives, lists/tuples,
dicts, sets, and custom objects exposing `__dict__`.  Children are heap
addresses, so cycles are representable. -/
inductive Node where
  | none
  | bool (b : Bool)
  | int (n : Int)
  | float (q : ℚ)
  | str (s : String)
  | list (elems : List Nat)
  | dict (entries : List (String × Nat))
  | set (elems : List Nat)
  | obj (className moduleName : String) (fields : List (String × Nat))
deriving DecidableEq

/-- A heap: finitely many assigned addresses, every other address holding
`None`. -/
abbrev Heap := List (Nat × Node)

def Heap.get (h : Heap) (a : Nat) : Node :=
  match h with
  | [] => .none
  | (k, n) :: rest => if k = a then n else Heap.get rest a

/-- Python's `type(value).__name__` for a heap node. -/
def Node.typeName : Node → String
  | .none => "NoneType"
  | .bool _ => "bool"
  | .int _ => "int"
  | .float _ => "float"
  | .str _ => "str"
  | .list _ => "list"
  | .dict _ => "dict"
  | .set _ => "set"
  | .obj c _ _ => c

/-- The value `_serialize_value` returns: JSON primitives, lists and
string-keyed dicts built during the walk — and, for set elements, the
original unprocessed values (`server.py` line 624 returns `list(value)`
without recursing), kept here as raw heap addresses. -/
inductive SValue where
  | null
  | bool (b : Bool)
  | int (n : Int)
  | float (q : ℚ)
  | str (s : String)
  | list (elems : List SValue)
  | dict (entries : List (String × SValue))
  | raw (addr : Nat)

/-- The recursion of `_serialize_value` (`server.py` lines 593-637),
re-indexed by the remaining depth budget: the source checks
`depth > max_depth` on entry and recurses with `depth + 1`, so a call at
`depth` has `max_depth + 1 - depth` budget left and the budget-zero case
is exactly the source's placeholder branch. -/
def serAux (h : Heap) : Nat → Nat → SValue
  | 0, addr => .str ("<max depth reached: " ++ (h.get addr).typeName ++ ">")
  | rem + 1, addr =>
    match h.get addr with
    | .none => .null
    | .bool b => .bool b
    | .int n => .int n
    | .float q => .float q
    | .str s => .str s
    | .list es => .list (es.map (serAux h rem))
    | .dict kvs => .dict (kvs.map fun kv => (kv.1, serAux h rem kv.2))
    | .set es => .list (es.map SValue.raw)
    | .obj c mo fields =>
      .dict (("__class__", SValue.str c) :: ("__module__", SValue.str mo) ::
        fields.map fun kv => (kv.1, serAux h rem kv.2))

/-- `_serialize_value(value, depth, max_depth)` (`server.py` lines
593-637; the method at lines 474-519 is the same code).  Total on every
heap, cyclic ones included, because each recursive call spends one unit
of the finite depth budget. -/
def serializeValue (h : Heap) (addr depth maxDepth : Nat) : SValue :=
  serAux h (maxDepth + 1 - depth) addr

/-- `json.dumps` accepts a raw Python value: primitives, and lists/dicts
of accepted values; sets and custom objects are rejected, and a cyclic
graph is rejected, hence the least fixed point. -/
inductive RawJson (h : Heap) : Nat → Prop
  | prim (a : Nat) :
    ((h.get a).typeName = "NoneType" ∨ (h.get a).typeName = "bool" ∨
     (h.get a).typeName = "int" ∨ (h.get a).typeName = "float" ∨
     (h.get a).typeName = "str") → RawJson h a
  | list (a : Nat) (es : List Nat) : h.get a = .list es →
    (∀ e ∈ es, RawJson h e) → RawJson h a
  | dict (a : Nat) (kvs : List (String × Nat)) : h.get a = .dict kvs →
    (∀ kv ∈ kvs, RawJson h kv.2) → RawJson h a

/-- `json.dumps` accepts the output of `_serialize_value`: the built
primitives, lists and dicts always, a raw set element only if the
original value it references is itself acceptable. -/
inductive SJson (h : Heap) : SValue → Prop
  | null : SJson h .null
  | bool (b : Bool) : SJson h (.bool b)
  | int (n : Int) : SJson h (.int n)
  | float (q : ℚ) : SJson h (.float q)
  | str (s : String) : SJson h (.str s)
  | list (es : List SValue) : (∀ e ∈ es, SJson h e) → SJson h (.list es)
  | dict (kvs : List (String × SValue)) : (∀ kv ∈ kvs, SJson h kv.2) →
    SJson h (.dict kvs)
  | raw (a : Nat) : RawJson h a → SJson h (.raw a)

def Node.isPrim : Node → Bool
  | .none | .bool _ | .int _ | .float _ | .str _ => true
  | _ => false

/-- Every set stored in the heap holds only primitive elements. -/
def setsPrimOnly (h : Heap) : Prop :=
  ∀ p ∈ h, ∀ es, p.2 = Node.set es → ∀ e ∈ es, (h.get e).isPrim = true

theorem rawJson_of_isPrim (h : Heap) (a : Nat)
    (hp : (h.get a).isPrim = true) : RawJson h a := by
  apply RawJson.prim
  cases hn : h.get a <;> rw [hn] at hp <;> simp [Node.isPrim] at hp <;>
    simp [hn, Node.typeName]

theorem heapGet_set_mem (h : Heap) (a : Nat) (es : List Nat)
    (hget : h.get a = .set es) : (a, Node.set es) ∈ h ∨ es = [] := by
  induction h with
  | nil => simp [Heap.get] at hget
  | cons p rest ih =>
    simp only [Heap.get] at hget
    split at hget
    · left
      rcases p with ⟨k, n⟩
      simp_all
    · rcases ih hget with h1 | h2
      · exact Or.inl (List.mem_cons_of_mem _ h1)
      · exact Or.inr h2

/-- When sets hold only primitives, the serializer's output is accepted
by `json.dumps`, whatever the depth budget. -/
theorem serAux_sjson (h : Heap) (hs : setsPrimOnly h) :
    ∀ rem addr, SJson h (serAux h rem addr) := by
  intro rem
  induction rem with
  | zero => intro addr; exact SJson.str _
  | succ n ih =>
    intro addr
    simp only [serAux]
    cases hget : h.get addr with
    | none => exact SJson.null
    | bool b => exact SJson.bool b
    | int n => exact SJson.int n
    | float q => exact SJson.float q
    | str s => exact SJson.str s
    | list es =>
      apply SJson.list
      intro e he
      obtain ⟨x, _, hx⟩ := List.mem_map.mp he
      exact hx ▸ ih x
    | dict kvs =>
      apply SJson.dict
      intro kv hkv
      obtain ⟨x, _, hx⟩ := List.mem_map.mp hkv
      exact hx ▸ ih x.2
    | set es =>
      apply SJson.list
      intro e he
      obtain ⟨x, hxm, hx⟩ := List.mem_map.mp he
      subst hx
      apply SJson.raw
      apply rawJson_of_isPrim
      rcases heapGet_set_mem h addr es hget with hmem | hnil
      · exact hs _ hmem es rfl x hxm
      · subst hnil; simp at hxm
    | obj c mo fields =>
      apply SJson.dict
      intro kv hkv
      simp only [List.mem_cons] at hkv
      rcases hkv with rfl | rfl | h1
      · exact SJson.str c
      · exact SJson.str mo
      · obtain ⟨x, _, hx⟩ := List.mem_map.mp h1
        exact hx ▸ ih x.2

/-!  The `/api/records` endpoint (`server.py`, `get_records` at lines
67-171 and the identical `RecordHandler._serve_records_api` at lines
312-425). -/

/-- The metadata a record file's JSON text yields before full decoding:
the fields the error handlers read with `data.get(key, default)`. -/
structure RawMeta where
  record_id? : Option String
  module? : Option String
  function? : Option String
  timestamp? : Option String

/-- The outcome of `TestRecord.from_dict` on parsed file content. -/
inductive FileLoad where
  | ok (r : TestRecord)
  | attrErr (msg : String)
  | genErr (errType errMsg : String)

/-- One record file as the enumeration loop sees it: either `json.load`
raises, or it yields metadata and `TestRecord.from_dict` then succeeds or
raises. -/
inductive RecFile where
  | parseFail (stem : String) (errType errMsg : String)
  | parsed (stem : String) (data : RawMeta) (load : FileLoad)

/-- One entry of the `records` array in the response. -/
structure RecordDict where
  module : String
  function : String
  args : List Value
  kwargs : List (String × Value)
  result : Value
  timestamp : String
  record_id : String

/-- `record_dict` built for a successfully loaded record (`server.py`
lines 86-94).  The `args`/`kwargs`/`result` fields carry the decoded
values whose JSON projection is `_serialize_value`, modelled above. -/
def mkRecordDict (r : TestRecord) : RecordDict :=
  ⟨r.module, r.function, r.args, r.kwargs, r.result, r.timestamp, r.record_id⟩

/-- One entry of the `error_records` array in the response. -/
structure ErrorEntry where
  record_id : String
  module : String
  function : String
  timestamp : String
  error_type : String
  error_message : String
  details : String

def isWordChar (c : Char) : Bool := c.isAlphanum || c == '_'

def classNameAt (seg : String) : Option String :=
  let w := seg.data.takeWhile isWordChar
  if w ≠ [] && ("' not found".data.isPrefixOf (seg.data.drop w.length)) then
    some ⟨w⟩
  else Option.none

/-- Models `re.search(r"Class '(\w+)' not found", error_msg)` at
`server.py` line 100: the capture of the first occurrence, if any. -/
def extractClassName (msg : String) : Option String :=
  firstSome classNameAt (strSplitOn msg "Class '").tail

/-- The error record built for an `AttributeError` (missing class) at
`server.py` lines 97-122. -/
def attrEntry (stem : String) (data : RawMeta) (msg : String) : ErrorEntry :=
  let c := (extractClassName msg).getD "Unknown"
  ⟨data.record_id?.getD stem, data.module?.getD "unknown",
    data.function?.getD "unknown", data.timestamp?.getD "",
    "MissingClass", "Class '" ++ c ++ "' not found in module",
    "The class '" ++ c ++ "' has been deleted or renamed."⟩

/-- The error record built by the generic handler at `server.py` lines
124-153.  `has_data` is Python's `"data" in locals()`: when `json.load`
raised for this file, `data` still holds the metadata of the last file
whose `json.load` succeeded, if any. -/
def genEntry (stem : String) (staleData : Option RawMeta)
    (errType errMsg : String) : ErrorEntry :=
  match staleData with
  | some d =>
    ⟨d.record_id?.getD stem, d.module?.getD "unknown",
      d.function?.getD "unknown", d.timestamp?.getD "",
      errType, errMsg.take 200, "Failed to load this record"⟩
  | Option.none =>
    ⟨stem, "unknown", "unknown", "", errType, errMsg.take 200,
      "Failed to load this record"⟩

/-- The enumeration loop of `get_records` (`server.py` lines 77-153),
threading the `data` local across iterations: each file contributes its
record dict to `records_data` or one entry to `error_records`. -/
def processFiles (staleData : Option RawMeta) :
    List RecFile → List RecordDict × List ErrorEntry
  | [] => ([], [])
  | .parseFail stem t m :: rest =>
    ((processFiles staleData rest).1,
      genEntry stem staleData t m :: (processFiles staleData rest).2)
  | .parsed stem data load :: rest =>
    match load with
    | .ok r =>
      (mkRecordDict r :: (processFiles (some data) rest).1,
        (processFiles (some data) rest).2)
    | .attrErr msg =>
      ((processFiles (some data) rest).1,
        attrEntry stem data msg :: (processFiles (some data) rest).2)
    | .genErr t m =>
      ((processFiles (some data) rest).1,
        genEntry stem (some data) t m :: (processFiles (some data) rest).2)

/-- The JSON body of `/api/records`: for backward compatibility, a plain
array when no record failed to load, otherwise the structured object
(`server.py` lines 155-168). -/
inductive RecordsResponse where
  | plain (records : List RecordDict)
  | withErrors (records : List RecordDict) (error_records : List ErrorEntry)
      (total_errors : Nat)

/-- `get_records` (`server.py` lines 67-171): enumerate the record files,
sort the loaded ones by timestamp descending, report the rest. -/
def getRecords (files : List RecFile) : RecordsResponse :=
  let rs := (processFiles Option.none files).1
  let es := (processFiles Option.none files).2
  let sorted := sortLe (fun a b => strLeB b.timestamp a.timestamp) rs
  if es.isEmpty then .plain sorted
  else .withErrors sorted es es.length

def RecordsResponse.records : RecordsResponse → List RecordDict
  | .plain rs => rs
  | .withErrors rs _ _ => rs

def RecordsResponse.errors : RecordsResponse → List ErrorEntry
  | .plain _ => []
  | .withErrors _ es _ => es

/-- The error type and message a failing record file is reported with;
`none` for a file that loads. -/
def errTag : RecFile → Option (String × String)
  | .parseFail _ t m => some (t, m.take 200)
  | .parsed _ _ (.ok _) => Option.none
  | .parsed _ _ (.attrErr msg) =>
    some ("MissingClass",
      "Class '" ++ ((extractClassName msg).getD "Unknown") ++
        "' not found in module")
  | .parsed _ _ (.genErr t m) => some (t, m.take 200)

def RecFile.loadsOk : RecFile → Option TestRecord
  | .parsed _ _ (.ok r) => some r
  | _ => Option.none

/-!  The CLI verify command (`cli.py` lines 262-298), for one record of a
module that imported and a function that resolved. -/

/-- How verification of one record is reported. -/
inductive VerifyOutcome where
  | pass
  | fail (msg : String)
  | error (msg : String)

/-- The function object `getattr(module, record.function)` yields: the
callable itself plus, when the decorator wrapped it, the original
function reachable through `__wrapped__`.  A call either returns a value
or raises. -/
structure PyFunc where
  call : List Value → List (String × Value) → Except String Value
  wrapped : Option (List Value → List (String × Value) → Except String Value)

/-- One iteration of the verify loop (`cli.py` lines 273-298): take
`__wrapped__` when present, otherwise the function itself; re-execute it
with the record's stored arguments; report PASS exactly when the matcher
accepts the fresh result against the stored one, FAIL with the matcher's
message otherwise, and ERROR when the call raises. -/
def verifyRecord (tol : Option ℚ) (cfg : Config) (r : TestRecord)
    (func : PyFunc) : VerifyOutcome :=
  let original := func.wrapped.getD func.call
  match original r.args r.kwargs with
  | .error e => .error ("Exception: " ++ e)
  | .ok result =>
    let mr := matcherMatch (tol.getD cfg.tolerance) r.result result
    if mr.passed then .pass else .fail mr.message

/-!  Branch characterisations of the wrapper, shared by the claim
theorems below. -/

theorem wrapper_eq_attrErr (upd : Bool) (roe : Option Bool) (tol : Option ℚ)
    (cfg : Config) (m fn : String)
    (f : List Value → List (String × Value) → Value) (args : List Value)
    (kwargs : List (String × Value)) (env : CallEnv) (e : String)
    (hf : Storage.find env.store m fn args kwargs = .attrErr e) :
    wrapper upd roe tol cfg m fn f args kwargs env =
      (if roe.getD cfg.raise_on_error then
        ⟨.regressionError ("Failed to load existing record for " ++ m ++ "."
            ++ fn ++ "\n" ++ e), env.store, [Event.exec, Event.find]⟩
      else
        ⟨.ret (f args kwargs), env.store,
          [Event.exec, Event.find] ++
            logErrorLines ("Failed to load existing record for " ++ m ++ "."
              ++ fn ++ "\n" ++ e) ++
            [Event.logWarning ("Skipping save for " ++ m ++ "." ++ fn ++
              " due to record load error")]⟩) := by
  simp only [wrapper, hf]

theorem wrapper_eq_importErr (upd : Bool) (roe : Option Bool) (tol : Option ℚ)
    (cfg : Config) (m fn : String)
    (f : List Value → List (String × Value) → Value) (args : List Value)
    (kwargs : List (String × Value)) (env : CallEnv) (e : String)
    (hf : Storage.find env.store m fn args kwargs = .importErr e) :
    wrapper upd roe tol cfg m fn f args kwargs env =
      (if roe.getD cfg.raise_on_error then
        ⟨.regressionError ("Failed to load existing record for " ++ m ++ "."
            ++ fn ++ "\n" ++ e), env.store, [Event.exec, Event.find]⟩
      else
        ⟨.ret (f args kwargs), env.store,
          [Event.exec, Event.find] ++
            logErrorLines ("Failed to load existing record for " ++ m ++ "."
              ++ fn ++ "\n" ++ e) ++
            [Event.logWarning ("Skipping save for " ++ m ++ "." ++ fn ++
              " due to record load error")]⟩) := by
  simp only [wrapper, hf]

theorem wrapper_eq_found_noUpdate (upd : Bool) (roe : Option Bool)
    (tol : Option ℚ) (cfg : Config) (m fn : String)
    (f : List Value → List (String × Value) → Value) (args : List Value)
    (kwargs : List (String × Value)) (env : CallEnv) (r : TestRecord)
    (hf : Storage.find env.store m fn args kwargs = .found r)
    (hu : (upd || cfg.update_mode) = false) :
    wrapper upd roe tol cfg m fn f args kwargs env =
      (if (matcherMatch (tol.getD cfg.tolerance) r.result (f args kwargs)).passed
       then
        ⟨.ret (f args kwargs), env.store,
          [Event.exec, Event.find, Event.logInfo ("Passed: " ++ m ++ "." ++ fn)]⟩
       else if roe.getD cfg.raise_on_error then
        ⟨.regressionError ("Regression test failed for " ++ m ++ "." ++ fn ++
            "\n" ++
            (matcherMatch (tol.getD cfg.tolerance) r.result (f args kwargs)).message),
          env.store, [Event.exec, Event.find]⟩
       else
        ⟨.ret (f args kwargs), env.store,
          [Event.exec, Event.find] ++
            logErrorLines ("Regression test failed for " ++ m ++ "." ++ fn ++
              "\n" ++
              (matcherMatch (tol.getD cfg.tolerance) r.result (f args kwargs)).message)⟩) := by
  simp only [wrapper, hf, hu, Bool.false_eq_true, if_false]

theorem wrapper_eq_save (upd : Bool) (roe : Option Bool) (tol : Option ℚ)
    (cfg : Config) (m fn : String)
    (f : List Value → List (String × Value) → Value) (args : List Value)
    (kwargs : List (String × Value)) (env : CallEnv) (updating : Bool)
    (hreach : (∃ r, Storage.find env.store m fn args kwargs = .found r ∧
        (upd || cfg.update_mode) = true ∧ updating = true) ∨
      (Storage.find env.store m fn args kwargs = .absent ∧ updating = false)) :
    wrapper upd roe tol cfg m fn f args kwargs env =
      wrapperSave m fn args kwargs (f args kwargs) env updating := by
  rcases hreach with ⟨r, hf, hu, hup⟩ | ⟨hf, hup⟩
  · subst hup
    simp only [wrapper, hf, hu, if_true]
  · subst hup
    simp only [wrapper, hf]

theorem logErrorLines_no_exec (msg : String) :
    ∀ e ∈ logErrorLines msg, e.isExec = false := by
  intro e he
  simp only [logErrorLines, List.mem_map] at he
  obtain ⟨l, _, hl⟩ := he
  rw [← hl]
  rfl

theorem logErrorLines_no_save (msg : String) :
    ∀ e ∈ logErrorLines msg, e.isSave = false := by
  intro e he
  simp only [logErrorLines, List.mem_map] at he
  obtain ⟨l, _, hl⟩ := he
  rw [← hl]
  rfl

/-- The wrapper's trace always starts with the execution of the wrapped
function followed by the store lookup, and no further execution happens
afterwards. -/
theorem wrapper_trace_shape (upd : Bool) (roe : Option Bool) (tol : Option ℚ)
    (cfg : Config) (m fn : String)
    (f : List Value → List (String × Value) → Value) (args : List Value)
    (kwargs : List (String × Value)) (env : CallEnv) :
    ∃ rest, (wrapper upd roe tol cfg m fn f args kwargs env).events =
        Event.exec :: Event.find :: rest ∧
      ∀ e ∈ rest, e.isExec = false := by
  unfold wrapper wrapperSave
  cases hf : Storage.find env.store m fn args kwargs <;> simp only []
  case found r =>
    split
    · split
      · exact ⟨_, rfl, by simp⟩
      · exact ⟨_, rfl, by simp [Event.isExec]⟩
    · split
      · exact ⟨_, rfl, by simp [Event.isExec]⟩
      · split
        · exact ⟨_, rfl, by simp⟩
        · refine ⟨_, rfl, ?_⟩
          intro e he
          exact logErrorLines_no_exec _ e he
  case absent =>
    split
    · exact ⟨_, rfl, by simp⟩
    · exact ⟨_, rfl, by simp [Event.isExec]⟩
  case attrErr e =>
    split
    · exact ⟨_, rfl, by simp⟩
    · refine ⟨_, rfl, ?_⟩
      intro ev hev
      rcases List.mem_append.mp hev with h1 | h1
      · exact logErrorLines_no_exec _ ev h1
      · simp only [List.mem_singleton] at h1; subst h1; rfl
  case importErr e =>
    split
    · exact ⟨_, rfl, by simp⟩
    · refine ⟨_, rfl, ?_⟩
      intro ev hev
      rcases List.mem_append.mp hev with h1 | h1
      · exact logErrorLines_no_exec _ ev h1
      · simp only [List.mem_singleton] at h1; subst h1; rfl
  case otherErr e =>
    exact ⟨_, rfl, by simp⟩

/-!  Concrete fixtures used by the witness theorems. -/

/-- A stored record for `m.f()` whose result is `1`. -/
def recFix : TestRecord := ⟨"m", "f", [], [], .int 1, "t0", "id0"⟩

/-- A store containing just `recFix`, keyed by its fingerprint. -/
def storeFix : Store := [(fingerprint "m" "f" [] [], .ok recFix)]

/-- A store whose only file for `m.f()` names a class that no longer
resolves. -/
def storeBadFix : Store := [(fingerprint "m" "f" [] [], .missingClass "C")]

/-- A wrapped function that now returns `2` instead of the recorded `1`. -/
def fFix : List Value → List (String × Value) → Value := fun _ _ => .int 2

/-- C1: when a record for the call's fingerprint exists, loads fine and
update mode is off, the wrapper leaves the store untouched and emits no
save; the stored and fresh results go to the matcher, and a failing
comparison's message is the rendering of a real first divergence between
them. -/
theorem claim_C1 (upd : Bool) (roe : Option Bool) (tol : Option ℚ)
    (cfg : Config) (m fn : String)
    (f : List Value → List (String × Value) → Value) (args : List Value)
    (kwargs : List (String × Value)) (env : CallEnv) (r : TestRecord)
    (hf : Storage.find env.store m fn args kwargs = .found r)
    (hu : (upd || cfg.update_mode) = false) :
    (wrapper upd roe tol cfg m fn f args kwargs env).store = env.store ∧
    (∀ e ∈ (wrapper upd roe tol cfg m fn f args kwargs env).events,
      e.isSave = false) ∧
    ((matcherMatch (tol.getD cfg.tolerance) r.result (f args kwargs)).passed
        = false →
      ∃ d, matchV (tol.getD cfg.tolerance) matcherMaxDepth [] r.result
          (f args kwargs) = some d ∧
        (matcherMatch (tol.getD cfg.tolerance) r.result (f args kwargs)).message
          = renderDiv d ∧
        divSoundB (tol.getD cfg.tolerance) d.kind = true) := by
  rw [wrapper_eq_found_noUpdate upd roe tol cfg m fn f args kwargs env r hf hu]
  refine ⟨?_, ?_, ?_⟩
  · split
    · rfl
    · split <;> rfl
  · split
    · simp [Event.isSave]
    · split
      · simp [Event.isSave]
      · intro e he
        rcases List.mem_append.mp he with h1 | h1
        · simp only [List.mem_cons, List.not_mem_nil, or_false] at h1
          rcases h1 with rfl | rfl <;> rfl
        · exact logErrorLines_no_save _ e h1
  · intro hfail
    unfold matcherMatch at hfail ⊢
    cases hm : matchV (tol.getD cfg.tolerance) matcherMaxDepth [] r.result
        (f args kwargs) with
    | none => rw [hm] at hfail; exact Bool.noConfusion hfail
    | some d => exact ⟨d, rfl, rfl, matchV_sound _ _ _ _ _ _ hm⟩

/-- C1 witness: a concrete call where the stored result `1` and the fresh
result `2` differ; all hypotheses hold and the conclusion follows by the
theorem. -/
theorem claim_C1_witness :
    Storage.find (CallEnv.mk storeFix Option.none "t").store "m" "f" [] []
        = .found recFix ∧
    ((false || ({} : Config).update_mode) = false) ∧
    ((wrapper false Option.none Option.none {} "m" "f" fFix [] []
        (CallEnv.mk storeFix Option.none "t")).store
      = (CallEnv.mk storeFix Option.none "t").store ∧
    (∀ e ∈ (wrapper false Option.none Option.none {} "m" "f" fFix [] []
        (CallEnv.mk storeFix Option.none "t")).events, e.isSave = false) ∧
    ((matcherMatch ((Option.none : Option ℚ).getD ({} : Config).tolerance)
        recFix.result (fFix [] [])).passed = false →
      ∃ d, matchV ((Option.none : Option ℚ).getD ({} : Config).tolerance)
          matcherMaxDepth [] recFix.result (fFix [] []) = some d ∧
        (matcherMatch ((Option.none : Option ℚ).getD ({} : Config).tolerance)
          recFix.result (fFix [] [])).message = renderDiv d ∧
        divSoundB ((Option.none : Option ℚ).getD ({} : Config).tolerance)
          d.kind = true)) :=
  ⟨rfl, rfl,
    claim_C1 false Option.none Option.none {} "m" "f" fFix [] []
      (CallEnv.mk storeFix Option.none "t") recFix rfl rfl⟩

/-- C2: a failing verdict escalates per the caller's policy — with the
effective raise flag true the wrapper raises a `RegressionTestError`
carrying the matcher's message, with it false the mismatch is only
logged and the fresh result is returned with the store untouched; the
match outcome itself is the `MatchResult` value the matcher returned. -/
theorem claim_C2 (upd : Bool) (roe : Option Bool) (tol : Option ℚ)
    (cfg : Config) (m fn : String)
    (f : List Value → List (String × Value) → Value) (args : List Value)
    (kwargs : List (String × Value)) (env : CallEnv) (r : TestRecord)
    (hf : Storage.find env.store m fn args kwargs = .found r)
    (hu : (upd || cfg.update_mode) = false)
    (hfail : (matcherMatch (tol.getD cfg.tolerance) r.result (f args kwargs)).passed
      = false) :
    (roe.getD cfg.raise_on_error = true →
      (wrapper upd roe tol cfg m fn f args kwargs env).outcome =
        .regressionError ("Regression test failed for " ++ m ++ "." ++ fn ++
          "\n" ++
          (matcherMatch (tol.getD cfg.tolerance) r.result (f args kwargs)).message)) ∧
    (roe.getD cfg.raise_on_error = false →
      wrapper upd roe tol cfg m fn f args kwargs env =
        ⟨.ret (f args kwargs), env.store,
          [Event.exec, Event.find] ++
            logErrorLines ("Regression test failed for " ++ m ++ "." ++ fn ++
              "\n" ++
              (matcherMatch (tol.getD cfg.tolerance) r.result
                (f args kwargs)).message)⟩) := by
  rw [wrapper_eq_found_noUpdate upd roe tol cfg m fn f args kwargs env r hf hu]
  rw [if_neg (by simp [hfail])]
  constructor
  · intro hr
    rw [if_pos hr]
  · intro hr
    rw [hr]
    simp

/-- C2 witness: with the decorator's raise flag set and the stored result
`1` against the fresh result `2`, the failing verdict is raised as a
`RegressionTestError` carrying the matcher's message. -/
theorem claim_C2_witness :
    Storage.find (CallEnv.mk storeFix Option.none "t").store "m" "f" [] []
        = .found recFix ∧
    ((false || ({} : Config).update_mode) = false) ∧
    (matcherMatch ((Option.none : Option ℚ).getD ({} : Config).tolerance)
        recFix.result (fFix [] [])).passed = false ∧
    ((some true).getD ({} : Config).raise_on_error = true →
      (wrapper false (some true) Option.none {} "m" "f" fFix [] []
          (CallEnv.mk storeFix Option.none "t")).outcome =
        .regressionError ("Regression test failed for " ++ "m" ++ "." ++ "f" ++
          "\n" ++
          (matcherMatch ((Option.none : Option ℚ).getD ({} : Config).tolerance)
            recFix.result (fFix [] [])).message)) :=
  ⟨rfl, rfl, rfl,
    (claim_C2 false (some true) Option.none {} "m" "f" fFix [] []
      (CallEnv.mk storeFix Option.none "t") recFix rfl rfl rfl).1⟩

/-- C3 counterexample: a call with the decorator's update flag set whose
existing record fails to load (missing class, raise flag off) performs no
save at all — the store is unchanged and the fresh result is returned —
contradicting "saves ... even when loading the existing record failed". -/
theorem claim_C3_counterexample :
    (wrapper true Option.none Option.none {} "m" "f" fFix [] []
        (CallEnv.mk storeBadFix Option.none "t")).store = storeBadFix ∧
    (wrapper true Option.none Option.none {} "m" "f" fFix [] []
        (CallEnv.mk storeBadFix Option.none "t")).events.all
      (fun e => !e.isSave) = true ∧
    (wrapper true Option.none Option.none {} "m" "f" fFix [] []
        (CallEnv.mk storeBadFix Option.none "t")).outcome = .ret (.int 2) :=
  ⟨rfl, rfl, rfl⟩

/-- C3 (amended): when update mode is on and the lookup completes without
a load error — an existing record was found, or none exists — the call
saves (overwrites) the record for the call's fingerprint with the freshly
computed result; when loading the existing record failed, the save is
skipped instead. -/
theorem claim_C3 (upd : Bool) (roe : Option Bool) (tol : Option ℚ)
    (cfg : Config) (m fn : String)
    (f : List Value → List (String × Value) → Value) (args : List Value)
    (kwargs : List (String × Value)) (env : CallEnv)
    (hu : (upd || cfg.update_mode) = true)
    (hsaveok : env.saveError = Option.none)
    (hok : (∃ r, Storage.find env.store m fn args kwargs = .found r) ∨
      Storage.find env.store m fn args kwargs = .absent) :
    ∃ rec, rec.module = m ∧ rec.function = fn ∧ rec.args = args ∧
      rec.kwargs = kwargs ∧ rec.result = f args kwargs ∧
      (wrapper upd roe tol cfg m fn f args kwargs env).store =
        Storage.save env.store rec ∧
      Event.save rec ∈ (wrapper upd roe tol cfg m fn f args kwargs env).events ∧
      (wrapper upd roe tol cfg m fn f args kwargs env).outcome =
        .ret (f args kwargs) := by
  rcases hok with ⟨r, hf⟩ | hf
  · rw [wrapper_eq_save upd roe tol cfg m fn f args kwargs env true
      (Or.inl ⟨r, hf, hu, rfl⟩)]
    unfold wrapperSave
    rw [hsaveok]
    exact ⟨_, rfl, rfl, rfl, rfl, rfl, rfl, by simp, rfl⟩
  · rw [wrapper_eq_save upd roe tol cfg m fn f args kwargs env false
      (Or.inr ⟨hf, rfl⟩)]
    unfold wrapperSave
    rw [hsaveok]
    exact ⟨_, rfl, rfl, rfl, rfl, rfl, rfl, by simp, rfl⟩

/-- C3 witness: with the update flag set and a loadable record present,
the call overwrites the record with the fresh result `2`. -/
theorem claim_C3_witness :
    ((true || ({} : Config).update_mode) = true) ∧
    ((CallEnv.mk storeFix Option.none "t").saveError = Option.none) ∧
    (∃ r, Storage.find (CallEnv.mk storeFix Option.none "t").store "m" "f" [] []
      = .found r) ∧
    (∃ rec, rec.module = "m" ∧ rec.function = "f" ∧ rec.args = [] ∧
      rec.kwargs = [] ∧ rec.result = fFix [] [] ∧
      (wrapper true Option.none Option.none {} "m" "f" fFix [] []
          (CallEnv.mk storeFix Option.none "t")).store =
        Storage.save (CallEnv.mk storeFix Option.none "t").store rec ∧
      Event.save rec ∈ (wrapper true Option.none Option.none {} "m" "f" fFix
          [] [] (CallEnv.mk storeFix Option.none "t")).events ∧
      (wrapper true Option.none Option.none {} "m" "f" fFix [] []
          (CallEnv.mk storeFix Option.none "t")).outcome = .ret (fFix [] [])) :=
  ⟨rfl, rfl, ⟨recFix, rfl⟩,
    claim_C3 true Option.none Option.none {} "m" "f" fFix [] []
      (CallEnv.mk storeFix Option.none "t") rfl rfl (Or.inl ⟨recFix, rfl⟩)⟩

/-- C4: with the raise flag off and the record lookup failing with an
`AttributeError` or `ImportError`, the wrapper logs the error and a
"skipping save" warning, performs no save — the store is untouched — and
returns the freshly computed result. -/
theorem claim_C4 (upd : Bool) (roe : Option Bool) (tol : Option ℚ)
    (cfg : Config) (m fn : String)
    (f : List Value → List (String × Value) → Value) (args : List Value)
    (kwargs : List (String × Value)) (env : CallEnv) (e : String)
    (hraise : roe.getD cfg.raise_on_error = false)
    (hf : Storage.find env.store m fn args kwargs = .attrErr e ∨
      Storage.find env.store m fn args kwargs = .importErr e) :
    wrapper upd roe tol cfg m fn f args kwargs env =
      ⟨.ret (f args kwargs), env.store,
        [Event.exec, Event.find] ++
          logErrorLines ("Failed to load existing record for " ++ m ++ "." ++
            fn ++ "\n" ++ e) ++
          [Event.logWarning ("Skipping save for " ++ m ++ "." ++ fn ++
            " due to record load error")]⟩ ∧
    (∀ ev ∈ (wrapper upd roe tol cfg m fn f args kwargs env).events,
      ev.isSave = false) := by
  have hw : wrapper upd roe tol cfg m fn f args kwargs env =
      ⟨.ret (f args kwargs), env.store,
        [Event.exec, Event.find] ++
          logErrorLines ("Failed to load existing record for " ++ m ++ "." ++
            fn ++ "\n" ++ e) ++
          [Event.logWarning ("Skipping save for " ++ m ++ "." ++ fn ++
            " due to record load error")]⟩ := by
    rcases hf with hf | hf
    · rw [wrapper_eq_attrErr upd roe tol cfg m fn f args kwargs env e hf,
        hraise]
      simp
    · rw [wrapper_eq_importErr upd roe tol cfg m fn f args kwargs env e hf,
        hraise]
      simp
  refine ⟨hw, ?_⟩
  rw [hw]
  intro ev hev
  rcases List.mem_append.mp hev with h1 | h1
  · rcases List.mem_append.mp h1 with h2 | h2
    · simp only [List.mem_cons, List.not_mem_nil, or_false] at h2
      rcases h2 with rfl | rfl <;> rfl
    · exact logErrorLines_no_save _ ev h2
  · simp only [List.mem_singleton] at h1
    subst h1
    rfl

/-- C4 witness: raise flag off and a record file naming a missing class —
the call logs, skips the save and returns the fresh result `2`. -/
theorem claim_C4_witness :
    ((Option.none : Option Bool).getD ({} : Config).raise_on_error = false) ∧
    (Storage.find (CallEnv.mk storeBadFix Option.none "t").store "m" "f" [] []
      = .attrErr "Class 'C' not found") ∧
    (wrapper false Option.none Option.none {} "m" "f" fFix [] []
        (CallEnv.mk storeBadFix Option.none "t")).outcome = .ret (fFix [] []) :=
  ⟨rfl, rfl, by
    rw [(claim_C4 false Option.none Option.none {} "m" "f" fFix [] []
      (CallEnv.mk storeBadFix Option.none "t") "Class 'C' not found" rfl
      (Or.inl rfl)).1]⟩

/-- A store whose only file for `m.f()` carries a tagged type from the
deleted module `mod`. -/
def storeBadModFix : Store := [(fingerprint "m" "f" [] [], .missingModule "mod")]

/-- C5: every record file whose tagged-object type cannot be resolved —
a missing class (`AttributeError`) or a missing module (`ImportError`) —
makes `find` raise that type-resolution error rather than return absent;
with the raise flag on the error surfaces to the decorated call's caller
as a `RegressionTestError`, and in no mode is it coerced into "no record
exists" — nothing is saved and the store is unchanged. -/
theorem claim_C5 (upd : Bool) (roe : Option Bool) (tol : Option ℚ)
    (cfg : Config) (m fn : String)
    (f : List Value → List (String × Value) → Value) (args : List Value)
    (kwargs : List (String × Value)) (env : CallEnv) (sf : StoredFile)
    (e : String)
    (hfile : env.store.lookupFile (fingerprint m fn args kwargs) = some sf)
    (hmsg : sf.unresolvedMsg = some e) :
    (Storage.find env.store m fn args kwargs = .attrErr e ∨
      Storage.find env.store m fn args kwargs = .importErr e) ∧
    Storage.find env.store m fn args kwargs ≠ .absent ∧
    (roe.getD cfg.raise_on_error = true →
      (wrapper upd roe tol cfg m fn f args kwargs env).outcome =
        .regressionError ("Failed to load existing record for " ++ m ++ "." ++
          fn ++ "\n" ++ e)) ∧
    (wrapper upd roe tol cfg m fn f args kwargs env).store = env.store ∧
    (∀ ev ∈ (wrapper upd roe tol cfg m fn f args kwargs env).events,
      ev.isSave = false) := by
  cases sf with
  | ok r => simp [StoredFile.unresolvedMsg] at hmsg
  | corrupt msg2 => simp [StoredFile.unresolvedMsg] at hmsg
  | missingClass c =>
    simp only [StoredFile.unresolvedMsg, Option.some.injEq] at hmsg
    subst hmsg
    have hfind : Storage.find env.store m fn args kwargs =
        .attrErr ("Class '" ++ c ++ "' not found") := by
      unfold Storage.find
      rw [hfile]
    rw [wrapper_eq_attrErr upd roe tol cfg m fn f args kwargs env _ hfind]
    refine ⟨Or.inl hfind, ?_, ?_, ?_, ?_⟩
    · rw [hfind]
      intro h
      cases h
    · intro hr
      rw [hr]
      simp
    · split <;> rfl
    · split
      · simp [Event.isSave]
      · intro ev hev
        rcases List.mem_append.mp hev with h1 | h1
        · rcases List.mem_append.mp h1 with h2 | h2
          · simp only [List.mem_cons, List.not_mem_nil, or_false] at h2
            rcases h2 with rfl | rfl <;> rfl
          · exact logErrorLines_no_save _ ev h2
        · simp only [List.mem_singleton] at h1
          subst h1
          rfl
  | missingModule mo =>
    simp only [StoredFile.unresolvedMsg, Option.some.injEq] at hmsg
    subst hmsg
    have hfind : Storage.find env.store m fn args kwargs =
        .importErr ("No module named '" ++ mo ++ "'") := by
      unfold Storage.find
      rw [hfile]
    rw [wrapper_eq_importErr upd roe tol cfg m fn f args kwargs env _ hfind]
    refine ⟨Or.inr hfind, ?_, ?_, ?_, ?_⟩
    · rw [hfind]
      intro h
      cases h
    · intro hr
      rw [hr]
      simp
    · split <;> rfl
    · split
      · simp [Event.isSave]
      · intro ev hev
        rcases List.mem_append.mp hev with h1 | h1
        · rcases List.mem_append.mp h1 with h2 | h2
          · simp only [List.mem_cons, List.not_mem_nil, or_false] at h2
            rcases h2 with rfl | rfl <;> rfl
          · exact logErrorLines_no_save _ ev h2
        · simp only [List.mem_singleton] at h1
          subst h1
          rfl

/-- C5 witness: a record file whose tagged type lives in the deleted
module `mod`, with the raise flag on: `find` raises the `ImportError`
flavor of the type-resolution error and the wrapper escalates it to a
`RegressionTestError`. -/
theorem claim_C5_witness :
    ((CallEnv.mk storeBadModFix Option.none "t").store.lookupFile
      (fingerprint "m" "f" [] []) = some (.missingModule "mod")) ∧
    ((StoredFile.missingModule "mod").unresolvedMsg =
      some ("No module named '" ++ "mod" ++ "'")) ∧
    (Storage.find (CallEnv.mk storeBadModFix Option.none "t").store "m" "f"
        [] [] = .attrErr ("No module named '" ++ "mod" ++ "'") ∨
      Storage.find (CallEnv.mk storeBadModFix Option.none "t").store "m" "f"
        [] [] = .importErr ("No module named '" ++ "mod" ++ "'")) ∧
    ((some true).getD ({} : Config).raise_on_error = true →
      (wrapper false (some true) Option.none {} "m" "f" fFix [] []
          (CallEnv.mk storeBadModFix Option.none "t")).outcome =
        .regressionError ("Failed to load existing record for " ++ "m" ++ "." ++
          "f" ++ "\n" ++ ("No module named '" ++ "mod" ++ "'"))) :=
  ⟨rfl, rfl,
    (claim_C5 false (some true) Option.none {} "m" "f" fFix [] []
      (CallEnv.mk storeBadModFix Option.none "t") (.missingModule "mod")
      ("No module named '" ++ "mod" ++ "'") rfl rfl).1,
    (claim_C5 false (some true) Option.none {} "m" "f" fFix [] []
      (CallEnv.mk storeBadModFix Option.none "t") (.missingModule "mod")
      ("No module named '" ++ "mod" ++ "'") rfl rfl).2.2.1⟩

/-- C6: when the save step is reached (no existing record, or update mode
on with the record found) and `storage.save` raises, the error propagates
to the caller of the decorated function — the wrapper has no handler
around save — and the store is left as it was. -/
theorem claim_C6 (upd : Bool) (roe : Option Bool) (tol : Option ℚ)
    (cfg : Config) (m fn : String)
    (f : List Value → List (String × Value) → Value) (args : List Value)
    (kwargs : List (String × Value)) (env : CallEnv) (e : String)
    (hsave : env.saveError = some e)
    (hreach : Storage.find env.store m fn args kwargs = .absent ∨
      (∃ r, Storage.find env.store m fn args kwargs = .found r ∧
        (upd || cfg.update_mode) = true)) :
    (wrapper upd roe tol cfg m fn f args kwargs env).outcome = .exn e ∧
    (wrapper upd roe tol cfg m fn f args kwargs env).store = env.store := by
  rcases hreach with hf | ⟨r, hf, hu⟩
  · rw [wrapper_eq_save upd roe tol cfg m fn f args kwargs env false
      (Or.inr ⟨hf, rfl⟩)]
    unfold wrapperSave
    rw [hsave]
    exact ⟨rfl, rfl⟩
  · rw [wrapper_eq_save upd roe tol cfg m fn f args kwargs env true
      (Or.inl ⟨r, hf, hu, rfl⟩)]
    unfold wrapperSave
    rw [hsave]
    exact ⟨rfl, rfl⟩

/-- C6 witness: an empty store (first-call recording) with a failing
`storage.save` — the write error reaches the caller unswallowed. -/
theorem claim_C6_witness :
    ((CallEnv.mk [] (some "disk full") "t").saveError = some "disk full") ∧
    (Storage.find (CallEnv.mk [] (some "disk full") "t").store "m" "f" [] [] =
      .absent) ∧
    (wrapper false Option.none Option.none {} "m" "f" fFix [] []
        (CallEnv.mk [] (some "disk full") "t")).outcome = .exn "disk full" ∧
    (wrapper false Option.none Option.none {} "m" "f" fFix [] []
        (CallEnv.mk [] (some "disk full") "t")).store =
      (CallEnv.mk [] (some "disk full") "t").store :=
  ⟨rfl, rfl,
    (claim_C6 false Option.none Option.none {} "m" "f" fFix [] []
      (CallEnv.mk [] (some "disk full") "t") "disk full" rfl (Or.inl rfl)).1,
    (claim_C6 false Option.none Option.none {} "m" "f" fFix [] []
      (CallEnv.mk [] (some "disk full") "t") "disk full" rfl (Or.inl rfl)).2⟩

/-- Every normal return of the wrapper carries exactly the value the
single execution of the wrapped function produced. -/
theorem wrapper_ret_value (upd : Bool) (roe : Option Bool) (tol : Option ℚ)
    (cfg : Config) (m fn : String)
    (f : List Value → List (String × Value) → Value) (args : List Value)
    (kwargs : List (String × Value)) (env : CallEnv) :
    ∀ v, (wrapper upd roe tol cfg m fn f args kwargs env).outcome = .ret v →
      v = f args kwargs := by
  intro v
  unfold wrapper wrapperSave
  cases hf : Storage.find env.store m fn args kwargs <;> simp only []
  case found r =>
    split
    · split
      · exact fun h => Outcome.noConfusion h
      · intro h; injection h with h2; exact h2.symm
    · split
      · intro h; injection h with h2; exact h2.symm
      · split
        · exact fun h => Outcome.noConfusion h
        · intro h; injection h with h2; exact h2.symm
  case absent =>
    split
    · exact fun h => Outcome.noConfusion h
    · intro h; injection h with h2; exact h2.symm
  case attrErr e =>
    split
    · exact fun h => Outcome.noConfusion h
    · intro h; injection h with h2; exact h2.symm
  case importErr e =>
    split
    · exact fun h => Outcome.noConfusion h
    · intro h; injection h with h2; exact h2.symm
  case otherErr e => exact fun h => Outcome.noConfusion h

/-- C9: on every call the wrapper executes the underlying function
exactly once — its trace is the execution, then the store lookup, then
save/log events only — and every non-raising path returns exactly the
value that single execution produced. -/
theorem claim_C9 (upd : Bool) (roe : Option Bool) (tol : Option ℚ)
    (cfg : Config) (m fn : String)
    (f : List Value → List (String × Value) → Value) (args : List Value)
    (kwargs : List (String × Value)) (env : CallEnv) :
    (∃ rest, (wrapper upd roe tol cfg m fn f args kwargs env).events =
        Event.exec :: Event.find :: rest ∧
      ∀ e ∈ rest, e.isExec = false) ∧
    (∀ v, (wrapper upd roe tol cfg m fn f args kwargs env).outcome = .ret v →
      v = f args kwargs) :=
  ⟨wrapper_trace_shape upd roe tol cfg m fn f args kwargs env,
    wrapper_ret_value upd roe tol cfg m fn f args kwargs env⟩

/-- C9 witness: a concrete first call returns the single execution's
value `2` and its trace starts exec-then-find. -/
theorem claim_C9_witness :
    (wrapper false Option.none Option.none {} "m" "f" fFix [] []
      (CallEnv.mk [] Option.none "t")).outcome = .ret (fFix [] []) ∧
    Value.int 2 = fFix [] [] ∧
    (∃ rest, (wrapper false Option.none Option.none {} "m" "f" fFix [] []
        (CallEnv.mk [] Option.none "t")).events =
        Event.exec :: Event.find :: rest ∧
      ∀ e ∈ rest, e.isExec = false) :=
  ⟨rfl,
    (claim_C9 false Option.none Option.none {} "m" "f" fFix [] []
      (CallEnv.mk [] Option.none "t")).2 (Value.int 2) rfl,
    (claim_C9 false Option.none Option.none {} "m" "f" fFix [] []
      (CallEnv.mk [] Option.none "t")).1⟩

theorem processFiles_length (files : List RecFile) : ∀ staleData,
    (processFiles staleData files).1.length +
      (processFiles staleData files).2.length = files.length := by
  induction files with
  | nil => intro staleData; rfl
  | cons fl rest ih =>
    intro staleData
    cases fl with
    | parseFail stem t msg =>
      simp only [processFiles, List.length_cons]
      have := ih staleData
      omega
    | parsed stem data load =>
      cases load <;> simp only [processFiles, List.length_cons] <;>
        have := ih (some data) <;> omega

theorem processFiles_mem_ok (files : List RecFile) : ∀ staleData,
    ∀ fl ∈ files, ∀ r, fl.loadsOk = some r →
      mkRecordDict r ∈ (processFiles staleData files).1 := by
  induction files with
  | nil => intro _ fl hfl; simp at hfl
  | cons g rest ih =>
    intro staleData fl hfl r hr
    rcases List.mem_cons.mp hfl with rfl | hfl2
    · cases fl with
      | parseFail stem t msg => simp [RecFile.loadsOk] at hr
      | parsed stem data load =>
        cases load with
        | ok r2 =>
          simp only [RecFile.loadsOk, Option.some.injEq] at hr
          subst hr
          simp [processFiles]
        | attrErr msg => simp [RecFile.loadsOk] at hr
        | genErr t msg => simp [RecFile.loadsOk] at hr
    · cases g with
      | parseFail stem t msg =>
        simp only [processFiles]
        exact ih staleData fl hfl2 r hr
      | parsed stem data load =>
        cases load with
        | ok r2 =>
          simp only [processFiles]
          exact List.mem_cons_of_mem _ (ih (some data) fl hfl2 r hr)
        | attrErr msg =>
          simp only [processFiles]
          exact ih (some data) fl hfl2 r hr
        | genErr t msg =>
          simp only [processFiles]
          exact ih (some data) fl hfl2 r hr

theorem genEntry_tag (stem : String) (staleData : Option RawMeta)
    (t msg : String) :
    ((genEntry stem staleData t msg).error_type,
      (genEntry stem staleData t msg).error_message) = (t, msg.take 200) := by
  cases staleData <;> simp [genEntry]

theorem processFiles_errTags (files : List RecFile) : ∀ staleData,
    ((processFiles staleData files).2).map
        (fun en => (en.error_type, en.error_message)) =
      files.filterMap errTag := by
  induction files with
  | nil => intro staleData; rfl
  | cons fl rest ih =>
    intro staleData
    cases fl with
    | parseFail stem t msg =>
      simp only [processFiles, List.map_cons, List.filterMap_cons, errTag]
      rw [genEntry_tag, ih staleData]
    | parsed stem data load =>
      cases load with
      | ok r =>
        simp only [processFiles, List.filterMap_cons, errTag]
        exact ih (some data)
      | attrErr msg =>
        simp only [processFiles, List.map_cons, List.filterMap_cons, errTag]
        rw [ih (some data)]
        rfl
      | genErr t msg =>
        simp only [processFiles, List.map_cons, List.filterMap_cons, errTag]
        rw [genEntry_tag, ih (some data)]

/-- C7: enumerating the persisted records drops no file — the returned
`records` and `error_records` partition the record files by count, every
file that decodes contributes its record dict to `records`, and the
failing files are reported, in order, with exactly their error type and
error message. -/
theorem claim_C7 (files : List RecFile) :
    (getRecords files).records.length + (getRecords files).errors.length =
      files.length ∧
    (∀ fl ∈ files, ∀ r, fl.loadsOk = some r →
      mkRecordDict r ∈ (getRecords files).records) ∧
    ((getRecords files).errors.map
      (fun en => (en.error_type, en.error_message))) = files.filterMap errTag := by
  have hlen := processFiles_length files Option.none
  have hmem := processFiles_mem_ok files Option.none
  have htags := processFiles_errTags files Option.none
  unfold getRecords
  dsimp only
  split
  case isTrue hemp =>
    have hes : (processFiles Option.none files).2 = [] :=
      List.isEmpty_iff.mp hemp
    simp only [RecordsResponse.records, RecordsResponse.errors]
    refine ⟨?_, ?_, ?_⟩
    · rw [length_sortLe]
      rw [hes] at hlen
      simpa using hlen
    · intro fl hfl r hr
      rw [mem_sortLe]
      exact hmem fl hfl r hr
    · rw [hes] at htags
      simpa using htags
  case isFalse hemp =>
    simp only [RecordsResponse.records, RecordsResponse.errors]
    refine ⟨?_, ?_, htags⟩
    · rw [length_sortLe]
      exact hlen
    · intro fl hfl r hr
      rw [mem_sortLe]
      exact hmem fl hfl r hr

/-- C7 witness: one record file that decodes to `recFix`: it appears in
the response's records, nothing is reported as an error, and the counts
add up. -/
theorem claim_C7_witness :
    (RecFile.parsed "s" (RawMeta.mk Option.none Option.none Option.none
      Option.none) (FileLoad.ok recFix)).loadsOk = some recFix ∧
    mkRecordDict recFix ∈
      (getRecords [RecFile.parsed "s" (RawMeta.mk Option.none Option.none
        Option.none Option.none) (FileLoad.ok recFix)]).records ∧
    (getRecords [RecFile.parsed "s" (RawMeta.mk Option.none Option.none
        Option.none Option.none) (FileLoad.ok recFix)]).records.length +
      (getRecords [RecFile.parsed "s" (RawMeta.mk Option.none Option.none
        Option.none Option.none) (FileLoad.ok recFix)]).errors.length = 1 :=
  ⟨rfl,
    (claim_C7 [RecFile.parsed "s" (RawMeta.mk Option.none Option.none
      Option.none Option.none) (FileLoad.ok recFix)]).2.1
      (RecFile.parsed "s" (RawMeta.mk Option.none Option.none Option.none
        Option.none) (FileLoad.ok recFix)) (by simp) recFix rfl,
    (claim_C7 [RecFile.parsed "s" (RawMeta.mk Option.none Option.none
      Option.none Option.none) (FileLoad.ok recFix)]).1⟩

/-- C8: the verify command re-executes the undecorated function — the one
behind `__wrapped__` when present, the function itself otherwise — with
the record's stored arguments, and reports PASS exactly when the matcher
accepts the fresh result against the stored one. -/
theorem claim_C8 (tol : Option ℚ) (cfg : Config) (r : TestRecord)
    (func : PyFunc) (v : Value)
    (hcall : (func.wrapped.getD func.call) r.args r.kwargs = .ok v) :
    verifyRecord tol cfg r func =
      verifyRecord tol cfg r ⟨func.wrapped.getD func.call, Option.none⟩ ∧
    (verifyRecord tol cfg r func = .pass ↔
      (matcherMatch (tol.getD cfg.tolerance) r.result v).passed = true) := by
  unfold verifyRecord
  simp only [Option.getD_none, hcall]
  refine ⟨trivial, ?_⟩
  cases hp : (matcherMatch (tol.getD cfg.tolerance) r.result v).passed <;>
    simp [hp]

/-- C8 witness: a decorated function whose `__wrapped__` returns the
recorded result `1`; verification reports PASS. -/
theorem claim_C8_witness :
    ((PyFunc.mk (fun _ _ => .error "decorated")
        (some fun _ _ => .ok (.int 1))).wrapped.getD
      (PyFunc.mk (fun _ _ => .error "decorated")
        (some fun _ _ => .ok (.int 1))).call) recFix.args recFix.kwargs =
      .ok (.int 1) ∧
    (verifyRecord Option.none {} recFix
        (PyFunc.mk (fun _ _ => .error "decorated")
          (some fun _ _ => .ok (.int 1))) = .pass ↔
      (matcherMatch ((Option.none : Option ℚ).getD ({} : Config).tolerance)
        recFix.result (.int 1)).passed = true) :=
  ⟨rfl,
    (claim_C8 Option.none {} recFix
      (PyFunc.mk (fun _ _ => .error "decorated")
        (some fun _ _ => .ok (.int 1))) (.int 1) rfl).2⟩

/-- A heap holding a set whose single element is a custom object. -/
def bugHeap : Heap := [(0, .set [1]), (1, .obj "Point" "mod" [])]

/-- C10: at a set containing a custom object, `_serialize_value` returns
the set's elements unprocessed (`list(value)` without recursing), and the
result is not JSON-serializable — `json.dumps` rejects a raw custom
object — contradicting the claimed (and documented) guarantee that the
function always returns a JSON-serializable value.  The depth cap itself
holds: beyond `max_depth` the placeholder string is returned. -/
theorem claim_C10 :
    serializeValue bugHeap 0 0 10 = .list [.raw 1] ∧
    ¬ SJson bugHeap (.list [.raw 1]) ∧
    serializeValue bugHeap 0 11 10 =
      .str ("<max depth reached: " ++ "set" ++ ">") := by
  refine ⟨rfl, ?_, rfl⟩
  intro h
  cases h with
  | list es h1 =>
    have h2 := h1 (.raw 1) (by simp)
    cases h2 with
    | raw a hraw =>
      cases hraw with
      | prim a2 hp =>
        rcases hp with hp | hp | hp | hp | hp <;>
          simp [bugHeap, Heap.get, Node.typeName] at hp
      | list a2 es2 he hall => simp [bugHeap, Heap.get] at he
      | dict a2 kvs2 he hall => simp [bugHeap, Heap.get] at he

end Regrest
